import Mathlib

/-!
Verification development for the TaXEaze receipt application core
(server/routes.ts together with the storage layer it embeds).

The embedding follows the TypeScript source:
  * a stored receipt row (`Receipt`) mirrors the `receipts` table: the
    `amount` column is the tax-inclusive total, `tax` is nullable;
    numeric columns are modelled by exact rationals (the JS code computes
    with `Number`; the claims under study are about the formulas, and the
    discrepancies settled below are visible already in exact arithmetic);
  * `getTax` is the summary derivation
    `r.tax ? Number(r.tax) : Number(r.amount) - Number(r.amount) / 1.05`;
  * `getReceipts` is `DatabaseStorage.getReceipts`: condition list built
    from the filter (userId, date range / year+month, category, LIKE
    search) and an order-by date descending.  JavaScript truthiness of
    `if (filters?.x)` is modelled: an empty string behaves as absent.
    `new Date("YYYY-MM-DD")` is modelled by `parseDate`, which accepts
    exactly ten-character ISO dates; any other (non-empty) string is an
    Invalid Date, which makes the query throw ("Invalid time value"),
    surfaced here as `Except.error`.  Calendar dates are compared through
    the order-preserving code `dateCode`; time zones and time of day are
    out of scope (the spec gives dates no time-of-day semantics).
    PostgreSQL `LIKE` is case sensitive; `containsSub` models the pattern
    `%s%` for a search string without SQL wildcard characters.
  * `mapFold` is the JavaScript `Map`/object accumulation pattern used by
    `getReceiptStats`, the PDF export and the Excel export: insertion
    order is preserved, `set` on an existing key updates in place.
-/

namespace TaxEaze

/-- Calendar date of a receipt: year, month (0-based as in JavaScript
`Date.getMonth`), day of month. -/
structure RDate where
  year : Nat
  month : Fin 12
  day : Nat
deriving DecidableEq, Repr

/-- Order-preserving integer code of a date, used for the `gte`/`lte`
comparisons on the timestamp column (day is at most 31 < 32, and a year
holds at most 12*32+31 < 416 codes, so the code is monotone in
(year, month, day)). -/
def dateCode (d : RDate) : Nat :=
  d.year * 416 + (d.month.val + 1) * 32 + d.day

/-- A stored receipt row (`receipts` table): `amount` is the total paid
including tax, `tax` is nullable (absent means "derive it"). -/
structure Receipt where
  userId : String
  merchantName : String
  date : RDate
  amount : ℚ
  tax : Option ℚ
  category : String
  description : Option String
deriving DecidableEq, Repr

/-- Summary derivation from getReceiptStats:
`r.tax ? Number(r.tax) : Number(r.amount) - Number(r.amount) / 1.05`.
A stored numeric-column tax is a non-empty string, hence truthy, so the
truthiness test is exactly presence. -/
def getTax (r : Receipt) : ℚ :=
  match r.tax with
  | some t => t
  | none => r.amount - r.amount / (21 / 20)

/-- Per-row tax of the PDF export:
`Number(receipt.tax || (amount - amount / 1.05))`. -/
def pdfTax (r : Receipt) : ℚ :=
  match r.tax with
  | some t => t
  | none => r.amount - r.amount / (21 / 20)

/-- Per-row tax of the Excel export:
`Number(r.tax || (total - total / 1.05))` where `total = Number(r.amount)`. -/
def excelTax (r : Receipt) : ℚ :=
  match r.tax with
  | some t => t
  | none => r.amount - r.amount / (21 / 20)

/-- The (pre-tax, tax, total) triple as derived by the summary layer. -/
def summaryTriple (r : Receipt) : ℚ × ℚ × ℚ :=
  (r.amount - getTax r, getTax r, r.amount)

/-- The (pre-tax, tax, total) triple of a PDF detail-ledger row:
`preTax = amount - tax`. -/
def pdfRowTriple (r : Receipt) : ℚ × ℚ × ℚ :=
  (r.amount - pdfTax r, pdfTax r, r.amount)

/-- The (Pre-Tax, Tax, Total Paid) cells of an Excel detail row:
`preTax = total - tax`. -/
def excelRowTriple (r : Receipt) : ℚ × ℚ × ℚ :=
  (r.amount - excelTax r, excelTax r, r.amount)

/-- Does `hay` start with `needle` (character-wise)? -/
def startsWith : List Char → List Char → Bool
  | _, [] => true
  | [], _ :: _ => false
  | c :: cs, d :: ds => c == d && startsWith cs ds

/-- Case-sensitive substring containment: the SQL pattern
LIKE with percent on both sides of a search string free of SQL wildcard
characters. -/
def containsSub : List Char → List Char → Bool
  | [], needle => startsWith [] needle
  | c :: t, needle => startsWith (c :: t) needle || containsSub t needle

/-- Digit value of a character. -/
def digitVal (c : Char) : Nat := c.toNat - 48

/-- Model of `new Date(s)` for the query date strings: exactly the
ten-character ISO format YYYY-MM-DD the API documents; any other string
is an Invalid Date (`none`). Day validity per month is not modelled
(no claim depends on it). -/
def parseDate (s : String) : Option RDate :=
  match s.data with
  | [y1, y2, y3, y4, h1, m1, m2, h2, d1, d2] =>
    if hd : y1.isDigit ∧ y2.isDigit ∧ y3.isDigit ∧ y4.isDigit ∧ h1 = '-' ∧
        m1.isDigit ∧ m2.isDigit ∧ h2 = '-' ∧ d1.isDigit ∧ d2.isDigit then
      let y := ((digitVal y1 * 10 + digitVal y2) * 10 + digitVal y3) * 10 + digitVal y4
      let mo := digitVal m1 * 10 + digitVal m2
      let dd := digitVal d1 * 10 + digitVal d2
      if hm : 1 ≤ mo ∧ mo ≤ 12 ∧ 1 ≤ dd ∧ dd ≤ 31 then
        some ⟨y, ⟨mo - 1, by omega⟩, dd⟩
      else none
    else none
  | _ => none

/-- Model of `new Date(year + "-01-01")` year parsing: four digits. -/
def parseYear (s : String) : Option Nat :=
  match s.data with
  | [a, b, c, d] =>
    if a.isDigit ∧ b.isDigit ∧ c.isDigit ∧ d.isDigit then
      some (((digitVal a * 10 + digitVal b) * 10 + digitVal c) * 10 + digitVal d)
    else none
  | _ => none

/-- Model of the month query parameter MM (two digits, 01 through 12),
as sent by the client month selector. -/
def parseMonthNum (s : String) : Option (Fin 12) :=
  match s.data with
  | [a, b] =>
    if h : a.isDigit ∧ b.isDigit ∧ 1 ≤ digitVal a * 10 + digitVal b ∧
        digitVal a * 10 + digitVal b ≤ 12 then
      some ⟨digitVal a * 10 + digitVal b - 1, by omega⟩
    else none
  | _ => none

/-- Filter object handed to `storage.getReceipts` (all fields optional
strings, exactly the shape built by the route handlers). -/
structure Filters where
  month : Option String
  year : Option String
  category : Option String
  search : Option String
  userId : Option String
  startDate : Option String
  endDate : Option String
deriving DecidableEq, Repr

/-- JavaScript truthiness of an optional string field: present and
non-empty. -/
def isT : Option String → Bool
  | some s => !s.isEmpty
  | none => false

/-- Parse a date string into its comparison code, or throw the
Invalid Date serialization error. -/
def parseDateE (s : String) : Except String Nat :=
  match parseDate s with
  | some d => Except.ok (dateCode d)
  | none => Except.error "Invalid time value"

/-- Lower date bound pushed by the range branch: present exactly when
the startDate field is truthy, in which case its parse must succeed. -/
def loOf (f : Filters) : Except String (Option Nat) :=
  if isT f.startDate then (parseDateE (f.startDate.getD "")).map some
  else Except.ok none

/-- Upper date bound pushed by the range branch: present exactly when
the endDate field is truthy, in which case its parse must succeed. -/
def hiOf (f : Filters) : Except String (Option Nat) :=
  if isT f.endDate then (parseDateE (f.endDate.getD "")).map some
  else Except.ok none

/-- Date bounds (as inclusive lower/upper date codes) contributed by the
filter, following the source branch structure: an explicit range takes
priority and skips the year/month branch entirely; otherwise year (with
optional month) selects the calendar period; parsing failures throw. -/
def dateConds (f : Filters) : Except String (Option Nat × Option Nat) :=
  if isT f.startDate || isT f.endDate then
    match loOf f, hiOf f with
    | Except.ok lo, Except.ok hi => Except.ok (lo, hi)
    | Except.error e, _ => Except.error e
    | _, Except.error e => Except.error e
  else if isT f.year then
    match parseYear (f.year.getD "") with
    | none => Except.error "Invalid time value"
    | some y =>
      if isT f.month then
        match parseMonthNum (f.month.getD "") with
        | none => Except.error "Invalid time value"
        | some m => Except.ok (some (dateCode ⟨y, m, 1⟩), some (dateCode ⟨y, m, 31⟩))
      else
        Except.ok (some (dateCode ⟨y, 0, 1⟩), some (dateCode ⟨y, 11, 31⟩))
  else
    Except.ok (none, none)

/-- Lower date-bound condition on a record (gte on the date column). -/
def boundLo (lo : Option Nat) (r : Receipt) : Bool :=
  match lo with
  | some c => decide (c ≤ dateCode r.date)
  | none => true

/-- Upper date-bound condition on a record (lte on the date column). -/
def boundHi (hi : Option Nat) (r : Receipt) : Bool :=
  match hi with
  | some c => decide (dateCode r.date ≤ c)
  | none => true

/-- Conjunction of the pushed conditions, in source order: userId,
date bounds, category (exact), merchant LIKE search. -/
def matchesF (f : Filters) (lo hi : Option Nat) (r : Receipt) : Bool :=
  (match f.userId with
   | some u => if u.isEmpty then true else r.userId == u
   | none => true) &&
  boundLo lo r &&
  boundHi hi r &&
  (match f.category with
   | some c => if c.isEmpty then true else r.category == c
   | none => true) &&
  (match f.search with
   | some s => if s.isEmpty then true else containsSub r.merchantName.data s.data
   | none => true)

/-- Stable insertion of a receipt into a list kept in descending date
order (models orderBy date descending; ties left in encounter order). -/
def insertByDateDesc (x : Receipt) : List Receipt → List Receipt
  | [] => [x]
  | y :: ys =>
    if dateCode y.date ≤ dateCode x.date then x :: y :: ys
    else y :: insertByDateDesc x ys

/-- Sort receipts by date descending (stable). -/
def sortByDateDesc (l : List Receipt) : List Receipt :=
  l.foldr insertByDateDesc []

/-- The storage query `getReceipts(filters)` over an in-memory record
store: build the date bounds (possibly throwing on an Invalid Date),
filter by the conjunction of conditions, order by date descending. -/
def getReceipts (f : Filters) (l : List Receipt) : Except String (List Receipt) :=
  match dateConds f with
  | Except.error e => Except.error e
  | Except.ok (lo, hi) => Except.ok (sortByDateDesc (l.filter (matchesF f lo hi)))

/-- Query parameters extracted by a route handler from the request. -/
structure QueryParams where
  month : Option String
  year : Option String
  category : Option String
  search : Option String
  userId : Option String
  startDate : Option String
  endDate : Option String
deriving DecidableEq, Repr

/-- Filter object built by the list handler (GET /api/receipts): all
seven query parameters are forwarded. -/
def listFilters (q : QueryParams) : Filters :=
  ⟨q.month, q.year, q.category, q.search, q.userId, q.startDate, q.endDate⟩

/-- Filter object built by the PDF export handler
(GET /api/receipts/export-pdf): only month, year, category, search and
userId are forwarded; startDate and endDate are not read. -/
def exportPdfFilters (q : QueryParams) : Filters :=
  ⟨q.month, q.year, q.category, q.search, q.userId, none, none⟩

/-- Filter object built by the Excel export handler
(GET /api/receipts/export): only month, year, category, search and
userId are forwarded; startDate and endDate are not read. -/
def exportExcelFilters (q : QueryParams) : Filters :=
  ⟨q.month, q.year, q.category, q.search, q.userId, none, none⟩

/-- Record set the list endpoint serves for a request. -/
def listRouteReceipts (q : QueryParams) (l : List Receipt) : Except String (List Receipt) :=
  getReceipts (listFilters q) l

/-- Record set the PDF export renders for a request. -/
def exportPdfReceipts (q : QueryParams) (l : List Receipt) : Except String (List Receipt) :=
  getReceipts (exportPdfFilters q) l

/-- Record set the Excel export renders for a request. -/
def exportExcelReceipts (q : QueryParams) (l : List Receipt) : Except String (List Receipt) :=
  getReceipts (exportExcelFilters q) l

/-- Accumulator bucket of getReceiptStats (per month or per category):
running total amount and tax. -/
structure Bucket where
  total : ℚ
  tax : ℚ
deriving DecidableEq, Repr

/-- Accumulator bucket of the export summaries (categoryTotals in the
PDF handler, summaryByCategory and summaryByMonth in the Excel handler):
running amount, tax and receipt count. -/
structure CBucket where
  amount : ℚ
  tax : ℚ
  count : Nat
deriving DecidableEq, Repr

/-- JavaScript Map.set and object key assignment: update the existing
entry in place, or append a new entry at the end (insertion order is
preserved). -/
def mapSet {β : Type} (k : String) (v : β) : List (String × β) → List (String × β)
  | [] => [(k, v)]
  | (a, b) :: rest => if a = k then (k, v) :: rest else (a, b) :: mapSet k v rest

/-- JavaScript Map.get and object key lookup. -/
def lookupKey {β : Type} (k : String) : List (String × β) → Option β
  | [] => none
  | (a, b) :: rest => if a = k then some b else lookupKey k rest

/-- Single left-to-right accumulation pass over the record set: for each
record, read the current bucket for its key (or the zero bucket) and
store the updated bucket. This is the forEach/for-of pattern shared by
getReceiptStats and both export handlers. -/
def mapFold {β : Type} (key : Receipt → String) (upd : Receipt → β → β) (z : β) :
    List Receipt → List (String × β) → List (String × β)
  | [], m => m
  | r :: rs, m => mapFold key upd z rs (mapSet (key r) (upd r ((lookupKey (key r) m).getD z)) m)

/-- English long month names, January first (toLocaleString month long). -/
def monthNames : List String :=
  ["January", "February", "March", "April", "May", "June",
   "July", "August", "September", "October", "November", "December"]

/-- Month label of a receipt date (toLocaleString month long). -/
def monthName (r : Receipt) : String :=
  monthNames.getD r.date.month.val ""

/-- The twelve zero buckets getReceiptStats seeds the monthly map with
before the pass over the records. -/
def monthSeed : List (String × Bucket) :=
  monthNames.map (fun n => (n, ⟨0, 0⟩))

/-- Monthly breakdown of getReceiptStats: the pre-seeded monthly map
after the accumulation pass (entries carry month label, total, tax). -/
def monthlyBreakdown (l : List Receipt) : List (String × Bucket) :=
  mapFold monthName (fun r b => ⟨b.total + r.amount, b.tax + getTax r⟩) ⟨0, 0⟩ l monthSeed

/-- Category breakdown of getReceiptStats: accumulated from an empty
map, in first-seen category order, and returned without sorting. -/
def categoryBreakdown (l : List Receipt) : List (String × Bucket) :=
  mapFold (fun r => r.category) (fun r b => ⟨b.total + r.amount, b.tax + getTax r⟩) ⟨0, 0⟩ l []

/-- Grand total of getReceiptStats: reduce of Number(r.amount). -/
def totalExpenses (l : List Receipt) : ℚ :=
  (l.map (fun r => r.amount)).sum

/-- Grand tax total of getReceiptStats: reduce of getTax. -/
def totalTax (l : List Receipt) : ℚ :=
  (l.map getTax).sum

/-- Category totals object of the PDF export handler (amount, tax and
count accumulated per category, insertion ordered). -/
def pdfCategoryTotals (l : List Receipt) : List (String × CBucket) :=
  mapFold (fun r => r.category)
    (fun r b => ⟨b.amount + r.amount, b.tax + pdfTax r, b.count + 1⟩) ⟨0, 0, 0⟩ l []

/-- Category summary map of the Excel export handler, accumulated over
the detail rows after their date-descending sort. -/
def excelSummaryByCategory (l : List Receipt) : List (String × CBucket) :=
  mapFold (fun r => r.category)
    (fun r b => ⟨b.amount + r.amount, b.tax + excelTax r, b.count + 1⟩) ⟨0, 0, 0⟩
    (sortByDateDesc l) []

/-- Stable insertion into a category list kept in descending order of
bucket amount: the new entry goes after every entry with an amount
greater than or equal to its own. -/
def insertCB (x : String × CBucket) : List (String × CBucket) → List (String × CBucket)
  | [] => [x]
  | y :: ys =>
    if y.2.amount ≤ x.2.amount then x :: y :: ys
    else y :: insertCB x ys

/-- Stable sort of category buckets by amount descending: the model of
the ECMAScript stable Array sort with comparator b.amount - a.amount
used by both export handlers. -/
def sortCatsDesc (l : List (String × CBucket)) : List (String × CBucket) :=
  l.foldr insertCB []

/-- The sortedCategories rows of the PDF cover page. -/
def pdfSortedCategories (l : List Receipt) : List (String × CBucket) :=
  sortCatsDesc (pdfCategoryTotals l)

/-- The categorySummaryData rows of the Excel Category Summary sheet. -/
def excelCategorySummaryData (l : List Receipt) : List (String × CBucket) :=
  sortCatsDesc (excelSummaryByCategory l)

/-- Append a key if it has not been seen yet. -/
def addKey (ks : List String) (c : String) : List String :=
  if c ∈ ks then ks else ks ++ [c]

/-- First-seen (insertion) order of keys, continuing from an already
accumulated key list. -/
def firstSeenFrom (ks : List String) : List String → List String
  | [] => ks
  | c :: cs => firstSeenFrom (addKey ks c) cs

/-- First-seen (insertion) order of a key sequence. -/
def firstSeenKeys (cs : List String) : List String :=
  firstSeenFrom [] cs

/-- Sum of a bucket projection over a map. -/
def sumBy (p : Bucket → ℚ) (m : List (String × Bucket)) : ℚ :=
  (m.map (fun x => p x.2)).sum

/-- A receipt with a stored tax line. -/
def rStored : Receipt := ⟨"user1", "Cafe", ⟨2024, 0, 5⟩, 105, some 7, "Food & Dining", none⟩

/-- A receipt with no stored tax line. -/
def rDerived : Receipt := ⟨"user1", "Cafe", ⟨2024, 1, 5⟩, 105, none, "Food & Dining", none⟩

/-- A zero-amount receipt with no stored tax line. -/
def rZero : Receipt := ⟨"user1", "Cafe", ⟨2024, 2, 5⟩, 0, none, "Food & Dining", none⟩

/-- A negative-amount receipt with no stored tax line. -/
def rNeg : Receipt := ⟨"user1", "Cafe", ⟨2024, 3, 5⟩, -21, none, "Food & Dining", none⟩

/-- A 100.00 receipt with no stored tax line. -/
def r100 : Receipt := ⟨"user1", "Store", ⟨2024, 0, 20⟩, 100, none, "Shopping", none⟩

/-- A single January receipt. -/
def rJan : Receipt := ⟨"user1", "Grocer", ⟨2024, 0, 15⟩, 105, none, "Food & Dining", none⟩

/-- A small-total category record seen first. -/
def rCatA : Receipt := ⟨"user1", "Alpha", ⟨2024, 0, 3⟩, 10, some 1, "Office Supplies", none⟩

/-- A large-total category record seen second. -/
def rCatB : Receipt := ⟨"user1", "Beta", ⟨2024, 0, 4⟩, 50, some 2, "Travel & Transportation", none⟩

/-- Propositional form of the userId condition: a truthy owner filter
forces an exact owner match. -/
def ownerOk (f : Filters) (r : Receipt) : Prop :=
  ∀ u, f.userId = some u → u.isEmpty = false → r.userId = u

/-- Propositional form of the category condition (exact, case
sensitive). -/
def catOk (f : Filters) (r : Receipt) : Prop :=
  ∀ c, f.category = some c → c.isEmpty = false → r.category = c

/-- Propositional form of the merchant search condition. -/
def searchOk (f : Filters) (r : Receipt) : Prop :=
  ∀ s, f.search = some s → s.isEmpty = false → containsSub r.merchantName.data s.data = true

/-- Propositional form of the lower date bound: a truthy, parseable
startDate forces date on or after it; absent startDate bounds nothing. -/
def startOk (f : Filters) (r : Receipt) : Prop :=
  ∀ s, f.startDate = some s → s.isEmpty = false →
    ∀ d, parseDate s = some d → dateCode d ≤ dateCode r.date

/-- Propositional form of the upper date bound: a truthy, parseable
endDate forces date on or before it; absent endDate bounds nothing. -/
def endOk (f : Filters) (r : Receipt) : Prop :=
  ∀ s, f.endDate = some s → s.isEmpty = false →
    ∀ d, parseDate s = some d → dateCode r.date ≤ dateCode d

/-- An out-of-range 2023 receipt. -/
def rOld : Receipt := ⟨"user1", "Old Shop", ⟨2023, 5, 1⟩, 10, some 1, "Other", none⟩

/-- An in-range January 10, 2024 receipt. -/
def rJan10 : Receipt := ⟨"user1", "Alpha Cafe", ⟨2024, 0, 10⟩, 30, some 2, "Food & Dining", none⟩

/-- An in-range March 10, 2024 receipt. -/
def rMar10 : Receipt := ⟨"user1", "Beta Hotel", ⟨2024, 2, 10⟩, 40, some 3, "Lodging", none⟩

/-- A filter with only a start date. -/
def fStartOnly : Filters := ⟨none, none, none, none, none, some "2024-01-10", none⟩

/-- A filter carrying only a merchant search string. -/
def searchOnly (s : String) : Filters := ⟨none, none, none, some s, none, none, none⟩

/-- A mixed-case merchant record. -/
def rStarbucks : Receipt := ⟨"user1", "Starbucks", ⟨2024, 0, 9⟩, 15, some 1, "Food & Dining", none⟩

/-- A lowercase-merchant record. -/
def rLowerShop : Receipt := ⟨"user1", "starbucks downtown", ⟨2024, 0, 8⟩, 12, some 1, "Food & Dining", none⟩

/-- A filter with a malformed start date. -/
def fBadDate : Filters := ⟨none, none, none, none, none, some "not-a-date", none⟩

/-- A receipt between the reversed bounds. -/
def rMid : Receipt := ⟨"user1", "Shop", ⟨2024, 0, 15⟩, 20, none, "Other", none⟩

/-- A filter whose well-formed start date is after its end date. -/
def fImpossible : Filters := ⟨none, none, none, none, none, some "2024-01-02", some "2024-01-01"⟩

/-- A request query carrying a date range. -/
def qRange : QueryParams := ⟨none, none, none, none, none, some "2024-01-01", some "2024-01-31"⟩

/-- A request query carrying no parameters. -/
def qPlain : QueryParams := ⟨none, none, none, none, none, none, none⟩

theorem lookup_mapSet {β : Type} (k q : String) (v : β) (m : List (String × β)) :
    lookupKey q (mapSet k v m) = if k = q then some v else lookupKey q m := by
  induction m with
  | nil => simp [mapSet, lookupKey]
  | cons hd tl ih =>
    obtain ⟨a, b⟩ := hd
    by_cases hak : a = k
    · subst hak
      simp only [mapSet, if_pos rfl, lookupKey]
      by_cases haq : a = q <;> simp [haq, lookupKey]
    · simp only [mapSet, if_neg hak, lookupKey]
      by_cases haq : a = q
      · subst haq
        have hka : ¬ (k = a) := fun h => hak h.symm
        simp [lookupKey, hka]
      · simp [lookupKey, haq, ih]

theorem keys_mapSet {β : Type} (k : String) (v : β) (m : List (String × β)) :
    (mapSet k v m).map Prod.fst =
      if k ∈ m.map Prod.fst then m.map Prod.fst else m.map Prod.fst ++ [k] := by
  induction m with
  | nil => simp [mapSet]
  | cons hd tl ih =>
    obtain ⟨a, b⟩ := hd
    by_cases hak : a = k
    · subst hak; simp [mapSet]
    · simp only [mapSet, if_neg hak, List.map_cons]
      rw [ih]
      have hka : ¬ (k = a) := fun h => hak h.symm
      by_cases hk : k ∈ tl.map Prod.fst <;> simp [hk, List.mem_cons, hka]

theorem keys_mapFold {β : Type} (key : Receipt → String) (upd : Receipt → β → β) (z : β) :
    ∀ (l : List Receipt) (m : List (String × β)),
      (mapFold key upd z l m).map Prod.fst = firstSeenFrom (m.map Prod.fst) (l.map key)
  | [], m => by simp [mapFold, firstSeenFrom]
  | r :: rs, m => by
    simp only [mapFold, List.map_cons, firstSeenFrom]
    rw [keys_mapFold key upd z rs]
    congr 1
    rw [keys_mapSet, addKey]

theorem firstSeenFrom_of_mem :
    ∀ (cs ks : List String), (∀ c ∈ cs, c ∈ ks) → firstSeenFrom ks cs = ks
  | [], _, _ => rfl
  | c :: cs, ks, h => by
    simp only [firstSeenFrom, addKey, if_pos (h c (by simp))]
    exact firstSeenFrom_of_mem cs ks (fun x hx => h x (by simp [hx]))

theorem lookup_mapFold_neq {β : Type} (key : Receipt → String) (upd : Receipt → β → β)
    (z : β) (k : String) :
    ∀ (l : List Receipt) (m : List (String × β)),
      (∀ r ∈ l, key r ≠ k) → lookupKey k (mapFold key upd z l m) = lookupKey k m
  | [], _, _ => rfl
  | r :: rs, m, h => by
    simp only [mapFold]
    rw [lookup_mapFold_neq key upd z k rs _ (fun x hx => h x (List.mem_cons_of_mem _ hx))]
    rw [lookup_mapSet]
    simp [h r (List.mem_cons_self _ _)]

theorem sumBy_mapSet (p : Bucket → ℚ) (hp0 : p ⟨0, 0⟩ = 0) (k : String) (v : Bucket) :
    ∀ m : List (String × Bucket),
      sumBy p (mapSet k v m) = sumBy p m + p v - p ((lookupKey k m).getD ⟨0, 0⟩)
  | [] => by simp [sumBy, mapSet, lookupKey, hp0]
  | (a, b) :: rest => by
    by_cases hak : a = k
    · subst hak
      simp [mapSet, lookupKey, sumBy]
      ring
    · simp only [mapSet, if_neg hak, lookupKey, if_neg hak, sumBy, List.map_cons,
        List.sum_cons]
      have := sumBy_mapSet p hp0 k v rest
      simp only [sumBy] at this
      rw [this]
      ring

theorem sumBy_mapFold (p : Bucket → ℚ) (hp0 : p ⟨0, 0⟩ = 0) (key : Receipt → String)
    (upd : Receipt → Bucket → Bucket) (w : Receipt → ℚ)
    (hupd : ∀ r b, p (upd r b) = p b + w r) :
    ∀ (l : List Receipt) (m : List (String × Bucket)),
      sumBy p (mapFold key upd ⟨0, 0⟩ l m) = sumBy p m + (l.map w).sum
  | [], m => by simp [mapFold]
  | r :: rs, m => by
    simp only [mapFold, List.map_cons, List.sum_cons]
    rw [sumBy_mapFold p hp0 key upd w hupd rs]
    rw [sumBy_mapSet p hp0]
    rw [hupd]
    ring

theorem mem_insertByDateDesc (x : Receipt) :
    ∀ (l : List Receipt) (r : Receipt), r ∈ insertByDateDesc x l ↔ r = x ∨ r ∈ l
  | [], r => by simp [insertByDateDesc]
  | y :: ys, r => by
    simp only [insertByDateDesc]
    split
    · simp [List.mem_cons]
    · simp only [List.mem_cons, mem_insertByDateDesc x ys r]
      tauto

theorem mem_sortByDateDesc : ∀ (l : List Receipt) (r : Receipt),
    r ∈ sortByDateDesc l ↔ r ∈ l
  | [], r => by simp [sortByDateDesc]
  | x :: xs, r => by
    show r ∈ insertByDateDesc x (sortByDateDesc xs) ↔ _
    rw [mem_insertByDateDesc]
    rw [mem_sortByDateDesc xs r]
    simp [List.mem_cons]

theorem mem_insertCB (x : String × CBucket) :
    ∀ (l : List (String × CBucket)) (y : String × CBucket),
      y ∈ insertCB x l ↔ y = x ∨ y ∈ l
  | [], y => by simp [insertCB]
  | z :: zs, y => by
    simp only [insertCB]
    split
    · simp [List.mem_cons]
    · simp only [List.mem_cons, mem_insertCB x zs y]
      tauto

theorem pairwise_insertCB (x : String × CBucket) :
    ∀ l : List (String × CBucket),
      l.Pairwise (fun a b => b.2.amount ≤ a.2.amount) →
      (insertCB x l).Pairwise (fun a b => b.2.amount ≤ a.2.amount)
  | [], _ => by simp [insertCB]
  | y :: ys, h => by
    rw [List.pairwise_cons] at h
    obtain ⟨hy, hys⟩ := h
    simp only [insertCB]
    split
    case isTrue hxy =>
      rw [List.pairwise_cons]
      refine ⟨fun z hz => ?_, List.pairwise_cons.mpr ⟨hy, hys⟩⟩
      rcases List.mem_cons.mp hz with rfl | hz
      · exact hxy
      · exact le_trans (hy z hz) hxy
    case isFalse hxy =>
      rw [List.pairwise_cons]
      refine ⟨fun z hz => ?_, pairwise_insertCB x ys hys⟩
      rcases (mem_insertCB x ys z).mp hz with rfl | hz
      · exact le_of_not_le hxy
      · exact hy z hz

theorem pairwise_sortCatsDesc :
    ∀ l : List (String × CBucket),
      (sortCatsDesc l).Pairwise (fun a b => b.2.amount ≤ a.2.amount)
  | [] => by simp [sortCatsDesc]
  | x :: xs => by
    show (insertCB x (sortCatsDesc xs)).Pairwise _
    exact pairwise_insertCB x _ (pairwise_sortCatsDesc xs)

theorem filter_insertCB (x : String × CBucket) (q : ℚ) :
    ∀ l : List (String × CBucket),
      (insertCB x l).filter (fun y => decide (y.2.amount = q)) =
        if x.2.amount = q then x :: l.filter (fun y => decide (y.2.amount = q))
        else l.filter (fun y => decide (y.2.amount = q))
  | [] => by
    simp only [insertCB, List.filter]
    by_cases hx : x.2.amount = q <;> simp [hx]
  | y :: ys => by
    simp only [insertCB]
    split
    case isTrue hxy =>
      by_cases hx : x.2.amount = q <;> simp [List.filter_cons, hx]
    case isFalse hxy =>
      rw [List.filter_cons, filter_insertCB x q ys]
      by_cases hx : x.2.amount = q
      · have hyq : ¬ (y.2.amount = q) := by
          intro hq
          exact hxy (le_of_eq (hq.trans hx.symm))
        simp [hx, hyq, List.filter_cons]
      · by_cases hyq : y.2.amount = q <;> simp [hx, hyq, List.filter_cons]

theorem filter_sortCatsDesc (q : ℚ) :
    ∀ l : List (String × CBucket),
      (sortCatsDesc l).filter (fun y => decide (y.2.amount = q)) =
        l.filter (fun y => decide (y.2.amount = q))
  | [] => rfl
  | x :: xs => by
    show (insertCB x (sortCatsDesc xs)).filter _ = _
    rw [filter_insertCB, filter_sortCatsDesc q xs, List.filter_cons]
    by_cases hx : x.2.amount = q <;> simp [hx]

theorem keys_monthSeed : monthSeed.map Prod.fst = monthNames := by
  rw [monthSeed, List.map_map]
  exact List.map_id monthNames

theorem getD_monthNames_mem : ∀ i : Fin 12, monthNames.getD i.val "" ∈ monthNames := by
  decide

theorem monthName_mem (r : Receipt) : monthName r ∈ monthNames :=
  getD_monthNames_mem r.date.month

theorem monthNames_getD_inj :
    ∀ i j : Fin 12, monthNames.getD i.val "" = monthNames.getD j.val "" → i = j := by
  decide

theorem lookup_monthSeed :
    ∀ i : Fin 12, lookupKey (monthNames.getD i.val "") monthSeed = some ⟨0, 0⟩ := by
  decide

/-- C1: the tax derivation returns a stored tax unchanged whenever one is
present, and otherwise computes amount - amount/1.05 verbatim; in
particular a zero amount with no stored tax derives tax 0, and negative
amounts go through the same formula with no clamping (the derivation is a
total function, so nothing is raised). -/
theorem C1_tax_derivation (r : Receipt) :
    (∀ t, r.tax = some t → getTax r = t) ∧
    (r.tax = none → getTax r = r.amount - r.amount / (21 / 20)) ∧
    (r.tax = none → r.amount = 0 → getTax r = 0) := by
  refine ⟨fun t ht => ?_, fun h => ?_, fun h h0 => ?_⟩
  · simp [getTax, ht]
  · simp [getTax, h]
  · simp [getTax, h, h0]

/-- C1 witness: the derivation evaluated on concrete stored-tax,
derived-tax, zero-amount and negative-amount receipts. -/
theorem C1_witness :
    getTax rStored = 7 ∧
    getTax rDerived = rDerived.amount - rDerived.amount / (21 / 20) ∧
    getTax rZero = 0 ∧
    getTax rNeg = rNeg.amount - rNeg.amount / (21 / 20) :=
  ⟨(C1_tax_derivation rStored).1 7 rfl,
   (C1_tax_derivation rDerived).2.1 rfl,
   (C1_tax_derivation rZero).2.2 rfl rfl,
   (C1_tax_derivation rNeg).2.1 rfl⟩

/-- C2 counterexample: for amount 100 with no stored tax the code derives
exactly 100/21 = 4.7619..., not the two-decimal rounding 4.76 the claim
asserts (the code contains no rounding step). -/
theorem C2_counterexample : getTax r100 ≠ 476 / 100 := by
  norm_num [getTax, r100]

/-- C2 amended: the derived tax of a record with no stored tax is
amount - amount/1.05 exactly, with no rounding to two decimals; for
amount 100.00 it equals 100/21 (approximately 4.7619, not 4.76) and the
pre-tax amount equals 2000/21 (approximately 95.2381, not 95.24); only
display formatting rounds. -/
theorem C2_unrounded_derivation (r : Receipt) (h : r.tax = none) :
    getTax r = r.amount - r.amount / (21 / 20) ∧
    (r.amount = 100 → getTax r = 100 / 21 ∧ r.amount - getTax r = 2000 / 21) := by
  refine ⟨by simp [getTax, h], fun h100 => ⟨?_, ?_⟩⟩
  · simp [getTax, h, h100]
    norm_num
  · simp [getTax, h, h100]
    norm_num

/-- C2 witness: the amended statement evaluated at the concrete
100.00 receipt. -/
theorem C2_witness :
    getTax r100 = 100 / 21 ∧ r100.amount - getTax r100 = 2000 / 21 :=
  (C2_unrounded_derivation r100 rfl).2 rfl

/-- C3: the monthly breakdown always lists exactly the twelve month
labels January through December in chronological order; a month with no
records keeps the zero bucket; the grand totals are 0 on empty input
(every aggregation is a total function, so nothing fails or is null). -/
theorem C3_full_year_shape (l : List Receipt) :
    (monthlyBreakdown l).map Prod.fst = monthNames ∧
    (∀ i : Fin 12, (∀ r ∈ l, r.date.month ≠ i) →
      lookupKey (monthNames.getD i.val "") (monthlyBreakdown l) = some ⟨0, 0⟩) ∧
    totalExpenses [] = 0 ∧ totalTax [] = 0 := by
  refine ⟨?_, ?_, rfl, rfl⟩
  · rw [monthlyBreakdown, keys_mapFold, keys_monthSeed]
    refine firstSeenFrom_of_mem _ _ (fun c hc => ?_)
    obtain ⟨r, _, rfl⟩ := List.mem_map.mp hc
    exact monthName_mem r
  · intro i hi
    rw [monthlyBreakdown, lookup_mapFold_neq]
    · exact lookup_monthSeed i
    · intro r hr heq
      exact hi r hr (monthNames_getD_inj r.date.month i heq)

/-- C3 witness: with one January record, February keeps the zero bucket
and the month axis is the full twelve-name list. -/
theorem C3_witness :
    lookupKey (monthNames.getD (1 : Fin 12).val "") (monthlyBreakdown [rJan]) = some ⟨0, 0⟩ ∧
    (monthlyBreakdown [rJan]).map Prod.fst = monthNames :=
  ⟨(C3_full_year_shape [rJan]).2.1 1 (by decide), (C3_full_year_shape [rJan]).1⟩

/-- C4: per-month totals, per-category totals and the grand total agree
exactly (hence to the cent), and likewise for the tax totals. -/
theorem C4_totals_consistent (l : List Receipt) :
    sumBy Bucket.total (monthlyBreakdown l) = totalExpenses l ∧
    sumBy Bucket.total (categoryBreakdown l) = totalExpenses l ∧
    sumBy Bucket.tax (monthlyBreakdown l) = totalTax l ∧
    sumBy Bucket.tax (categoryBreakdown l) = totalTax l := by
  have hst : sumBy Bucket.total monthSeed = 0 := by simp [sumBy, monthSeed, monthNames]
  have hsx : sumBy Bucket.tax monthSeed = 0 := by simp [sumBy, monthSeed, monthNames]
  refine ⟨?_, ?_, ?_, ?_⟩
  · rw [monthlyBreakdown,
      sumBy_mapFold Bucket.total rfl monthName _ (fun r => r.amount) (fun r b => rfl),
      hst, zero_add]
    rfl
  · rw [categoryBreakdown,
      sumBy_mapFold Bucket.total rfl _ _ (fun r => r.amount) (fun r b => rfl)]
    simp [sumBy, totalExpenses]
  · rw [monthlyBreakdown,
      sumBy_mapFold Bucket.tax rfl monthName _ getTax (fun r b => rfl),
      hsx, zero_add]
    rfl
  · rw [categoryBreakdown,
      sumBy_mapFold Bucket.tax rfl _ _ getTax (fun r b => rfl)]
    simp [sumBy, totalTax]

/-- C9: for every record, the summary derivation, the PDF detail row and
the Excel detail row produce the same (pre-tax, tax, total) triple. -/
theorem C9_triple_consistency (r : Receipt) :
    pdfRowTriple r = summaryTriple r ∧ excelRowTriple r = summaryTriple r := by
  cases h : r.tax <;>
    simp [pdfRowTriple, excelRowTriple, summaryTriple, pdfTax, excelTax, getTax, h]

/-- C5 counterexample: the summary categoryBreakdown is emitted in
first-seen order without sorting, so a small category seen first
precedes a larger one, violating non-increasing order by total. -/
theorem C5_counterexample :
    categoryBreakdown [rCatA, rCatB] =
      [("Office Supplies", ⟨10, 1⟩), ("Travel & Transportation", ⟨50, 2⟩)] ∧
    ¬ (categoryBreakdown [rCatA, rCatB]).Pairwise (fun a b => b.2.total ≤ a.2.total) := by
  have hcb : categoryBreakdown [rCatA, rCatB] =
      [("Office Supplies", ⟨10, 1⟩), ("Travel & Transportation", ⟨50, 2⟩)] := by
    simp [categoryBreakdown, mapFold, mapSet, lookupKey, rCatA, rCatB, getTax]
  refine ⟨hcb, ?_⟩
  rw [hcb]
  intro h
  have h50 := (List.pairwise_cons.mp h).1
    ("Travel & Transportation", (⟨50, 2⟩ : Bucket)) (by simp)
  norm_num at h50

/-- C5 amended: the PDF cover table and the Excel category-summary sheet
are sorted non-increasing by total amount with ties kept in first-seen
(insertion) order, but the summary API categoryBreakdown is emitted in
first-seen insertion order without sorting. -/
theorem C5_category_ordering (l : List Receipt) (q : ℚ) :
    ((pdfSortedCategories l).Pairwise (fun a b => b.2.amount ≤ a.2.amount) ∧
      (pdfSortedCategories l).filter (fun y => decide (y.2.amount = q)) =
        (pdfCategoryTotals l).filter (fun y => decide (y.2.amount = q))) ∧
    ((excelCategorySummaryData l).Pairwise (fun a b => b.2.amount ≤ a.2.amount) ∧
      (excelCategorySummaryData l).filter (fun y => decide (y.2.amount = q)) =
        (excelSummaryByCategory l).filter (fun y => decide (y.2.amount = q))) ∧
    (categoryBreakdown l).map Prod.fst = firstSeenKeys (l.map (fun r => r.category)) := by
  refine ⟨⟨pairwise_sortCatsDesc _, filter_sortCatsDesc q _⟩,
    ⟨pairwise_sortCatsDesc _, filter_sortCatsDesc q _⟩, ?_⟩
  rw [categoryBreakdown, keys_mapFold]
  rfl

theorem owner_iff (f : Filters) (r : Receipt) :
    ((match f.userId with
      | some u => if u.isEmpty then true else r.userId == u
      | none => true) = true) ↔ ownerOk f r := by
  cases hu : f.userId with
  | none =>
    constructor
    · intro _ u2 h2 _
      rw [hu] at h2
      cases h2
    · intro _; rfl
  | some u =>
    cases he : u.isEmpty with
    | true =>
      simp only [he, if_true]
      constructor
      · intro _ u2 h2 hne
        rw [hu] at h2
        obtain rfl : u = u2 := Option.some.inj h2
        rw [he] at hne
        cases hne
      · intro _; trivial
    | false =>
      simp only [he, Bool.false_eq_true, if_false, beq_iff_eq]
      constructor
      · intro h u2 h2 _
        rw [hu] at h2
        obtain rfl : u = u2 := Option.some.inj h2
        exact h
      · intro h
        exact h u hu he

theorem cat_iff (f : Filters) (r : Receipt) :
    ((match f.category with
      | some c => if c.isEmpty then true else r.category == c
      | none => true) = true) ↔ catOk f r := by
  cases hc : f.category with
  | none =>
    constructor
    · intro _ c2 h2 _
      rw [hc] at h2
      cases h2
    · intro _; rfl
  | some c =>
    cases he : c.isEmpty with
    | true =>
      simp only [he, if_true]
      constructor
      · intro _ c2 h2 hne
        rw [hc] at h2
        obtain rfl : c = c2 := Option.some.inj h2
        rw [he] at hne
        cases hne
      · intro _; trivial
    | false =>
      simp only [he, Bool.false_eq_true, if_false, beq_iff_eq]
      constructor
      · intro h c2 h2 _
        rw [hc] at h2
        obtain rfl : c = c2 := Option.some.inj h2
        exact h
      · intro h
        exact h c hc he

theorem search_iff (f : Filters) (r : Receipt) :
    ((match f.search with
      | some s => if s.isEmpty then true else containsSub r.merchantName.data s.data
      | none => true) = true) ↔ searchOk f r := by
  cases hs : f.search with
  | none =>
    constructor
    · intro _ s2 h2 _
      rw [hs] at h2
      cases h2
    · intro _; rfl
  | some s =>
    cases he : s.isEmpty with
    | true =>
      simp only [he, if_true]
      constructor
      · intro _ s2 h2 hne
        rw [hs] at h2
        obtain rfl : s = s2 := Option.some.inj h2
        rw [he] at hne
        cases hne
      · intro _; trivial
    | false =>
      simp only [he, Bool.false_eq_true, if_false]
      constructor
      · intro h s2 h2 _
        rw [hs] at h2
        obtain rfl : s = s2 := Option.some.inj h2
        exact h
      · intro h
        exact h s hs he

theorem loOf_spec (f : Filters) (lo : Option Nat) (h : loOf f = Except.ok lo)
    (r : Receipt) :
    boundLo lo r = true ↔ startOk f r := by
  cases hs : f.startDate with
  | none =>
    rw [loOf, hs] at h
    simp only [isT, Bool.false_eq_true, if_false] at h
    obtain rfl : (none : Option Nat) = lo := Except.ok.inj h
    simp only [startOk, hs]
    exact ⟨fun _ s h2 => Option.noConfusion h2, fun _ => rfl⟩
  | some s =>
    rw [loOf, hs] at h
    by_cases he : s.isEmpty
    · simp only [isT, he, Bool.not_true, Bool.false_eq_true, if_false] at h
      obtain rfl : (none : Option Nat) = lo := Except.ok.inj h
      simp only [startOk, hs]
      constructor
      · intro _ s2 h2 hne
        obtain rfl : s = s2 := Option.some.inj h2
        rw [he] at hne
        cases hne
      · intro _; trivial
    · simp only [isT, he, Bool.not_false, if_true, Option.getD_some, parseDateE] at h
      cases hp : parseDate s with
      | none => rw [hp] at h; cases h
      | some d =>
        rw [hp] at h
        simp only [Except.map_ok] at h
        obtain rfl : (some (dateCode d) : Option Nat) = lo := Except.ok.inj h
        simp only [boundLo, startOk, hs, decide_eq_true_eq]
        constructor
        · intro hle s2 h2 _ d2 hp2
          obtain rfl : s = s2 := Option.some.inj h2
          rw [hp] at hp2
          obtain rfl : d = d2 := Option.some.inj hp2
          exact hle
        · intro h2
          exact h2 s rfl (by simp [he]) d hp

theorem hiOf_spec (f : Filters) (hi : Option Nat) (h : hiOf f = Except.ok hi)
    (r : Receipt) :
    boundHi hi r = true ↔ endOk f r := by
  cases hs : f.endDate with
  | none =>
    rw [hiOf, hs] at h
    simp only [isT, Bool.false_eq_true, if_false] at h
    obtain rfl : (none : Option Nat) = hi := Except.ok.inj h
    simp only [endOk, hs]
    exact ⟨fun _ s h2 => Option.noConfusion h2, fun _ => rfl⟩
  | some s =>
    rw [hiOf, hs] at h
    by_cases he : s.isEmpty
    · simp only [isT, he, Bool.not_true, Bool.false_eq_true, if_false] at h
      obtain rfl : (none : Option Nat) = hi := Except.ok.inj h
      simp only [endOk, hs]
      constructor
      · intro _ s2 h2 hne
        obtain rfl : s = s2 := Option.some.inj h2
        rw [he] at hne
        cases hne
      · intro _; trivial
    · simp only [isT, he, Bool.not_false, if_true, Option.getD_some, parseDateE] at h
      cases hp : parseDate s with
      | none => rw [hp] at h; cases h
      | some d =>
        rw [hp] at h
        simp only [Except.map_ok] at h
        obtain rfl : (some (dateCode d) : Option Nat) = hi := Except.ok.inj h
        simp only [boundHi, endOk, hs, decide_eq_true_eq]
        constructor
        · intro hle s2 h2 _ d2 hp2
          obtain rfl : s = s2 := Option.some.inj h2
          rw [hp] at hp2
          obtain rfl : d = d2 := Option.some.inj hp2
          exact hle
        · intro h2
          exact h2 s rfl (by simp [he]) d hp

theorem matchesF_iff (f : Filters) (lo hi : Option Nat) (r : Receipt)
    (hlo : loOf f = Except.ok lo) (hhi : hiOf f = Except.ok hi) :
    matchesF f lo hi r = true ↔
      ownerOk f r ∧ startOk f r ∧ endOk f r ∧ catOk f r ∧ searchOk f r := by
  unfold matchesF
  simp only [Bool.and_eq_true]
  rw [owner_iff, loOf_spec f lo hlo r, hiOf_spec f hi hhi r, cat_iff, search_iff]
  tauto

theorem dateConds_of_range (f : Filters)
    (hcond : (isT f.startDate || isT f.endDate) = true) (lo hi : Option Nat)
    (hdc : dateConds f = Except.ok (lo, hi)) :
    loOf f = Except.ok lo ∧ hiOf f = Except.ok hi := by
  rw [dateConds, if_pos hcond] at hdc
  cases hA : loOf f with
  | error e => rw [hA] at hdc; simp at hdc
  | ok a =>
    cases hB : hiOf f with
    | error e => rw [hA, hB] at hdc; simp at hdc
    | ok b =>
      rw [hA, hB] at hdc
      obtain ⟨h1, h2⟩ := Prod.mk.inj (Except.ok.inj hdc)
      subst h1
      subst h2
      exact ⟨rfl, rfl⟩

theorem dateConds_strip (f : Filters)
    (hcond : (isT f.startDate || isT f.endDate) = true) :
    dateConds { f with year := none, month := none } = dateConds f := by
  unfold dateConds
  rw [if_pos, if_pos]
  · rfl
  · exact hcond
  · exact hcond

/-- C6: when startDate or endDate is set (truthy), membership in the
selection is exactly owner match, date on/after a given parsed startDate,
date on/before a given parsed endDate (each bound absent when its field
is absent, so a lone startDate leaves no upper bound and a lone endDate
no lower bound), category match and merchant search match — and the
year/month fields have no effect on the result. -/
theorem C6_date_range_selection (f : Filters) (l res : List Receipt) (r : Receipt)
    (hrange : isT f.startDate = true ∨ isT f.endDate = true)
    (hok : getReceipts f l = Except.ok res) :
    (r ∈ res ↔ r ∈ l ∧ ownerOk f r ∧ startOk f r ∧ endOk f r ∧ catOk f r ∧ searchOk f r) ∧
    getReceipts f l = getReceipts { f with year := none, month := none } l := by
  have hcond : (isT f.startDate || isT f.endDate) = true := by
    rcases hrange with h | h <;> simp [h]
  constructor
  · cases hdc : dateConds f with
    | error e =>
      unfold getReceipts at hok
      rw [hdc] at hok
      exact Except.noConfusion hok
    | ok p =>
      obtain ⟨lo, hi⟩ := p
      obtain ⟨hlo, hhi⟩ := dateConds_of_range f hcond lo hi hdc
      unfold getReceipts at hok
      rw [hdc] at hok
      obtain rfl : sortByDateDesc (l.filter (matchesF f lo hi)) = res := Except.ok.inj hok
      rw [mem_sortByDateDesc, List.mem_filter, matchesF_iff f lo hi r hlo hhi]
  · unfold getReceipts
    rw [dateConds_strip f hcond]
    rfl

/-- C6 witness: the characterization evaluated on a start-date-only
filter over three concrete receipts (result computed by the kernel). -/
theorem C6_witness :
    (rMar10 ∈ ([rMar10, rJan10] : List Receipt) ↔
      rMar10 ∈ [rOld, rJan10, rMar10] ∧ ownerOk fStartOnly rMar10 ∧
      startOk fStartOnly rMar10 ∧ endOk fStartOnly rMar10 ∧
      catOk fStartOnly rMar10 ∧ searchOk fStartOnly rMar10) ∧
    getReceipts fStartOnly [rOld, rJan10, rMar10] =
      getReceipts { fStartOnly with year := none, month := none } [rOld, rJan10, rMar10] :=
  C6_date_range_selection fStartOnly [rOld, rJan10, rMar10] [rMar10, rJan10] rMar10
    (Or.inl rfl) rfl

/-- C7 amended: with a (non-empty) search filter the selection keeps
exactly the records whose merchant name contains the search string as a
CASE-SENSITIVE substring (PostgreSQL LIKE), not case-insensitive. -/
theorem C7_search_case_sensitive (s : String) (hs : s.isEmpty = false)
    (l : List Receipt) (r : Receipt) :
    getReceipts (searchOnly s) l =
      Except.ok (sortByDateDesc (l.filter (fun x => containsSub x.merchantName.data s.data))) ∧
    (r ∈ sortByDateDesc (l.filter (fun x => containsSub x.merchantName.data s.data)) ↔
      r ∈ l ∧ containsSub r.merchantName.data s.data = true) := by
  have hfun : matchesF (searchOnly s) none none =
      fun x => containsSub x.merchantName.data s.data := by
    funext x
    simp [matchesF, searchOnly, boundLo, boundHi, hs]
  constructor
  · show Except.ok (sortByDateDesc (l.filter (matchesF (searchOnly s) none none))) = _
    rw [hfun]
  · rw [mem_sortByDateDesc, List.mem_filter]

/-- C7 witness: the amended case-sensitive characterization evaluated on
a concrete search. -/
theorem C7_witness :
    getReceipts (searchOnly "star") [rLowerShop] =
      Except.ok (sortByDateDesc ([rLowerShop].filter
        (fun x => containsSub x.merchantName.data "star".data))) ∧
    (rLowerShop ∈ sortByDateDesc ([rLowerShop].filter
        (fun x => containsSub x.merchantName.data "star".data)) ↔
      rLowerShop ∈ [rLowerShop] ∧
      containsSub rLowerShop.merchantName.data "star".data = true) :=
  C7_search_case_sensitive "star" rfl [rLowerShop] rLowerShop

/-- C7 counterexample: the merchant Starbucks contains the search string
starbucks case-insensitively, so the claim says the record is kept, but
the case-sensitive LIKE selection returns the empty list. -/
theorem C7_counterexample :
    getReceipts (searchOnly "starbucks") [rStarbucks] = Except.ok [] ∧
    containsSub ("Starbucks".data.map Char.toLower) ("starbucks".data.map Char.toLower) = true :=
  ⟨rfl, rfl⟩

/-- C8 amended: a truthy but malformed startDate or endDate string makes
the selection fail with the Invalid Date serialization error, which the
route surfaces as a caller-visible rejection; an impossible range of
well-formed dates is NOT rejected (see the counterexample). -/
theorem C8_invalid_filter (f : Filters) (l : List Receipt)
    (h : (∃ s, f.startDate = some s ∧ s.isEmpty = false ∧ parseDate s = none) ∨
         (∃ s, f.endDate = some s ∧ s.isEmpty = false ∧ parseDate s = none)) :
    getReceipts f l = Except.error "Invalid time value" := by
  rcases h with ⟨s, hsd, hne, hp⟩ | ⟨s, hsd, hne, hp⟩
  · have hT : isT f.startDate = true := by rw [hsd]; simp [isT, hne]
    have hcond : (isT f.startDate || isT f.endDate) = true := by simp [hT]
    have hlo : loOf f = Except.error "Invalid time value" := by
      rw [loOf, if_pos hT, hsd]
      simp [parseDateE, hp, Except.map]
    unfold getReceipts dateConds
    rw [if_pos hcond, hlo]
    cases hB : hiOf f <;> rfl
  · have hT : isT f.endDate = true := by rw [hsd]; simp [isT, hne]
    have hcond : (isT f.startDate || isT f.endDate) = true := by simp [hT]
    have hhi : hiOf f = Except.error "Invalid time value" := by
      rw [hiOf, if_pos hT, hsd]
      simp [parseDateE, hp, Except.map]
    unfold getReceipts dateConds
    rw [if_pos hcond, hhi]
    cases hA : loOf f with
    | ok a => rfl
    | error e =>
      have hmsg : e = "Invalid time value" := by
        rw [loOf] at hA
        split at hA
        · rw [parseDateE] at hA
          cases hp2 : parseDate (f.startDate.getD "") with
          | some d => rw [hp2] at hA; simp [Except.map] at hA
          | none =>
            rw [hp2] at hA
            simp only [Except.map] at hA
            exact (Except.error.inj hA).symm
        · exact Except.noConfusion hA
      rw [hmsg]

/-- C8 witness: a malformed start date string is rejected. -/
theorem C8_witness : getReceipts fBadDate [] = Except.error "Invalid time value" :=
  C8_invalid_filter fBadDate [] (Or.inl ⟨"not-a-date", rfl, rfl, rfl⟩)

/-- C8 counterexample: an impossible range (startDate after endDate,
both well-formed) is not rejected; the selection returns a normal
empty record list. -/
theorem C8_counterexample :
    getReceipts fImpossible [rMid] = Except.ok [] ∧
    parseDate "2024-01-02" = some ⟨2024, 0, 2⟩ ∧
    parseDate "2024-01-01" = some ⟨2024, 0, 1⟩ ∧
    dateCode ⟨2024, 0, 1⟩ < dateCode ⟨2024, 0, 2⟩ :=
  ⟨rfl, rfl, rfl, by decide⟩

/-- C10 amended: the export handlers forward only month, year, category,
search and userId; startDate and endDate in an export request are
discarded (the built filters carry none), so the exported record set is
invariant under the request date-range fields — unlike the list query. -/
theorem C10_exports_ignore_range (q q2 : QueryParams) (l : List Receipt)
    (hm : q.month = q2.month) (hy : q.year = q2.year) (hc : q.category = q2.category)
    (hs : q.search = q2.search) (hu : q.userId = q2.userId) :
    exportPdfReceipts q l = exportPdfReceipts q2 l ∧
    exportExcelReceipts q l = exportExcelReceipts q2 l ∧
    (exportPdfFilters q).startDate = none ∧ (exportPdfFilters q).endDate = none ∧
    (exportExcelFilters q).startDate = none ∧ (exportExcelFilters q).endDate = none := by
  have hpdf : exportPdfFilters q = exportPdfFilters q2 := by
    simp only [exportPdfFilters, hm, hy, hc, hs, hu]
  have hxls : exportExcelFilters q = exportExcelFilters q2 := by
    simp only [exportExcelFilters, hm, hy, hc, hs, hu]
  refine ⟨?_, ?_, rfl, rfl, rfl, rfl⟩
  · simp only [exportPdfReceipts]
    rw [hpdf]
  · simp only [exportExcelReceipts]
    rw [hxls]

/-- C10 witness: a ranged and an empty export request produce the same
exported record set. -/
theorem C10_witness :
    exportPdfReceipts qRange [rJan10, rMar10] = exportPdfReceipts qPlain [rJan10, rMar10] ∧
    exportExcelReceipts qRange [rJan10, rMar10] = exportExcelReceipts qPlain [rJan10, rMar10] ∧
    (exportPdfFilters qRange).startDate = none ∧ (exportPdfFilters qRange).endDate = none ∧
    (exportExcelFilters qRange).startDate = none ∧ (exportExcelFilters qRange).endDate = none :=
  C10_exports_ignore_range qRange qPlain [rJan10, rMar10] rfl rfl rfl rfl rfl

/-- C10 counterexample: a January date range restricts the list query to
the January receipt, but both exports ignore the range and also emit the
March receipt, so the exported set differs from the list result. -/
theorem C10_counterexample :
    listRouteReceipts qRange [rJan10, rMar10] = Except.ok [rJan10] ∧
    exportPdfReceipts qRange [rJan10, rMar10] = Except.ok [rMar10, rJan10] ∧
    exportExcelReceipts qRange [rJan10, rMar10] = Except.ok [rMar10, rJan10] ∧
    exportPdfReceipts qRange [rJan10, rMar10] ≠ listRouteReceipts qRange [rJan10, rMar10] := by
  refine ⟨rfl, rfl, rfl, fun hEq => ?_⟩
  rw [show exportPdfReceipts qRange [rJan10, rMar10] = Except.ok [rMar10, rJan10] from rfl,
      show listRouteReceipts qRange [rJan10, rMar10] = Except.ok [rJan10] from rfl] at hEq
  simp at hEq

end TaxEaze

